import Mathlib

/-!
Verification of the HTML-to-Notion conversion core of the notero-custom
repository against its specification.

The development shallowly embeds the conversion pipeline:
  - the DOM is modelled by the inductive `DomNode` (elements carry tag name,
    class list, inline background color, href, the out-of-band annotation
    descriptor of embedded images, and child nodes);
  - JavaScript string primitives (trim, toLowerCase, split, slice) are
    modelled by structurally recursive functions over the character list of
    a `String`, so that every definition evaluates inside the kernel;
  - `parse-node.ts`, the two `html-to-notion.ts` snapshots (the synchronous
    one, suffixed `B` here, and the asynchronous annotation one, suffixed
    `C`), and the batch/grouping logic of `sync-note.ts` are translated
    function by function.

External modules that are not part of the source tree (`content-result.ts`,
`dom-utils.ts`, `notion-utils.ts`, the annotations module and the Notion
limits constant) are modelled from the specification; every such definition
carries a doc comment starting with "Modelled from the spec".
-/

/-! ## JavaScript string primitives, modelled over the character list -/

/-- Model of the JavaScript `String.prototype.trimStart`. -/
def jsTrimStart (s : String) : String := ⟨s.data.dropWhile Char.isWhitespace⟩

/-- Model of the JavaScript `String.prototype.trimEnd`. -/
def jsTrimEnd (s : String) : String := ⟨(s.data.reverse.dropWhile Char.isWhitespace).reverse⟩

/-- Model of the JavaScript `String.prototype.trim`. -/
def jsTrim (s : String) : String := jsTrimEnd (jsTrimStart s)

/-- Model of the JavaScript `String.prototype.toLowerCase` (ASCII letters). -/
def jsToLower (s : String) : String := ⟨s.data.map Char.toLower⟩

/-- Model of `String.prototype.slice(n)`: drop the first `n` characters. -/
def jsDrop (s : String) (n : Nat) : String := ⟨s.data.drop n⟩

/-- Drop the last `n` characters; `jsDrop` and `jsDropRight` together model
`String.prototype.slice(1, -1)`. -/
def jsDropRight (s : String) (n : Nat) : String := ⟨s.data.take (s.data.length - n)⟩

/-- Character count of a string (JavaScript `length`, for ASCII content). -/
def jsLen (s : String) : Nat := s.data.length

/-- Model of `String.prototype.startsWith`. -/
def strStartsWith (s p : String) : Bool := p.data.isPrefixOf s.data

/-- Model of `String.prototype.endsWith`. -/
def strEndsWith (s p : String) : Bool := p.data.reverse.isPrefixOf s.data.reverse

/-- Helper for `jsSplitChar`: accumulates the current fragment (reversed). -/
def splitCharAux (c : Char) : List Char → List Char → List (List Char)
  | [], cur => [cur.reverse]
  | x :: rest, cur =>
    if x = c then cur.reverse :: splitCharAux c rest []
    else splitCharAux c rest (x :: cur)

/-- Model of `String.prototype.split` on a single-character separator, as in
the source expression `remainingText.trim().split(/#/)`. -/
def jsSplitChar (c : Char) (s : String) : List String :=
  (splitCharAux c s.data []).map String.mk

/-- Helper for `replaceFirst`: scans for the first occurrence of `pat`. -/
def replaceFirstAux (pat rep : List Char) : List Char → List Char
  | [] => []
  | x :: rest =>
    if pat.isPrefixOf (x :: rest) then rep ++ (x :: rest).drop pat.length
    else x :: replaceFirstAux pat rep rest

/-- Replace the first occurrence of `pat` in `s` by `rep`, as JavaScript
`String.prototype.replace` does with a non-empty string pattern. -/
def replaceFirst (s pat rep : String) : String :=
  ⟨replaceFirstAux pat.data rep.data s.data⟩

/-- Test for the source regex `^https?:\/\/.+` applied to an href value. -/
def isHttpUrl (s : String) : Bool :=
  (strStartsWith s "http://" && jsLen s > 7) || (strStartsWith s "https://" && jsLen s > 8)

/-! ## Inline annotations, spans, rich-text options -/

/-- The partial annotations object attached to rich-text runs.  Fields are
optional because the source spreads partial objects (a missing key is `none`,
a present key is `some`). -/
structure AnnotFlags where
  bold : Option Bool := none
  italic : Option Bool := none
  strikethrough : Option Bool := none
  underline : Option Bool := none
  code : Option Bool := none
  color : Option String := none
deriving Repr, DecidableEq

/-- JavaScript object spread `{...a, ...b}`: keys of `b` override keys of `a`. -/
def AnnotFlags.merge (a b : AnnotFlags) : AnnotFlags where
  bold := b.bold.orElse fun _ => a.bold
  italic := b.italic.orElse fun _ => a.italic
  strikethrough := b.strikethrough.orElse fun _ => a.strikethrough
  underline := b.underline.orElse fun _ => a.underline
  code := b.code.orElse fun _ => a.code
  color := b.color.orElse fun _ => a.color

/-- One rich-text span: either a text run with annotations and an optional
link URL, or an equation span carrying a math expression. -/
inductive Span where
  | text (content : String) (annots : AnnotFlags) (link : Option String)
  | equation (expr : String)
deriving Repr, DecidableEq

/-- The `RichTextOptions` record threaded through the conversion, extended
with the annotation flag exactly as the source intersection type does.  The
flag field is named `isAnnot` here, a shortening of the source field name. -/
structure RichTextOptions where
  annots : AnnotFlags := {}
  link : Option String := none
  preserveWhitespace : Bool := false
  isAnnot : Bool := false
deriving Repr, DecidableEq

/-! ## Block objects -/

/-- A Notion block request object.  The source builds these dynamically as
`keyValue(blockType, data)`, so the block type is a string key; `richText`,
`children`, `color` and `url` are the payload fields that occur in the
repository (`children` and `color` are absent when `none`). -/
inductive Block where
  | mk (btype : String) (richText : List Span) (children : Option (List Block))
      (color : Option String) (url : Option String)

/-- The block-type key of a block (mirrors `isBlockType` and `'x' in block`). -/
def Block.btype : Block → String
  | .mk t _ _ _ _ => t

/-- The rich-text payload of a block. -/
def Block.richText : Block → List Span
  | .mk _ rt _ _ _ => rt

/-- The children payload of a block. -/
def Block.children : Block → Option (List Block)
  | .mk _ _ ch _ _ => ch

/-- The color payload of a block. -/
def Block.color : Block → Option String
  | .mk _ _ _ c _ => c

/-- The external-url payload of an image block. -/
def Block.url : Block → Option String
  | .mk _ _ _ _ u => u

/-- Modelled from the spec: the `ContentResult` algebra of the external
`content-result.ts` module (section 3 of the spec): a `BlockResult` carries
one block, a `ListResult` carries a flattened run of blocks, a
`RichTextResult` carries an unterminated run of spans. -/
inductive ContentResult where
  | blockR (block : Block)
  | listR (results : List Block)
  | richTextR (richText : List Span)

/-- JavaScript property access `result.block`: defined on a `BlockResult`,
`undefined` on the other variants. -/
def ContentResult.blockProp : ContentResult → Option Block
  | .blockR b => some b
  | _ => none

/-- The element type of the array built by `convertChildNodes`, whose source
type is `(BlockResult | RichTextResult)[]`. -/
inductive ChildResult where
  | blockR (b : Block)
  | richTextR (ts : List Span)

/-- The dynamic value space of one element of the array returned by the
top-level conversion: a fully-formed block object, or (a priori) a
`RichTextResult` or `ListResult` record that leaked through. -/
inductive TopLevelResult where
  | blockObj (b : Block)
  | richTextResObj (ts : List Span)
  | listResObj (bs : List Block)

/-! ## The DOM model -/

/-- A borrowed, read-only DOM node.  Elements carry the upper-case tag name,
the class list, the inline `background-color` style value, the `href`
attribute, the decoded data annotation descriptor of embedded images (an
annotation key and a source color, per section 4.5 of the spec), and the
child nodes. -/
inductive DomNode where
  | text (content : String)
  | element (tag : String) (classes : List String) (bgColor : Option String)
      (href : Option String) (descriptor : Option (String × String))
      (children : List DomNode)

/-- The `childNodes` list of a node. -/
def DomNode.childNodes : DomNode → List DomNode
  | .text _ => []
  | .element _ _ _ _ _ cs => cs

/-- Whether the node is an element (`isHTMLElement`). -/
def DomNode.isElem : DomNode → Bool
  | .text _ => false
  | .element _ _ _ _ _ _ => true

/-- The `tagName` of an element; `none` on a text node. -/
def DomNode.tag? : DomNode → Option String
  | .text _ => none
  | .element t _ _ _ _ _ => some t

/-- Membership test on the `classList`. -/
def DomNode.hasClass (n : DomNode) (cls : String) : Bool :=
  match n with
  | .text _ => false
  | .element _ classes _ _ _ _ => classes.contains cls

/-- The inline `style.backgroundColor` value of an element. -/
def DomNode.bg? : DomNode → Option String
  | .text _ => none
  | .element _ _ b _ _ _ => b

/-- The `href` attribute value of an element. -/
def DomNode.href? : DomNode → Option String
  | .text _ => none
  | .element _ _ _ h _ _ => h

/-- The decoded data annotation descriptor of an image element. -/
def DomNode.descriptor? : DomNode → Option (String × String)
  | .text _ => none
  | .element _ _ _ _ d _ => d

/-- The `children` property: element children only. -/
def DomNode.elemChildren (n : DomNode) : List DomNode :=
  n.childNodes.filter DomNode.isElem

mutual

/-- The concatenated text of a node (`textContent`). -/
def DomNode.textContent : DomNode → String
  | .text s => s
  | .element _ _ _ _ _ cs => textContentList cs

/-- Text content of a child-node list, in document order. -/
def textContentList : List DomNode → String
  | [] => ""
  | c :: rest => c.textContent ++ textContentList rest

end

mutual

/-- All descendant elements of a node in document (pre-order) traversal,
the node itself excluded; the search space of `querySelector`. -/
def DomNode.descElems : DomNode → List DomNode
  | .text _ => []
  | .element _ _ _ _ _ cs => descElemsList cs

/-- Descendant elements contributed by a child-node list. -/
def descElemsList : List DomNode → List DomNode
  | [] => []
  | c :: rest =>
    (if c.isElem then [c] else []) ++ c.descElems ++ descElemsList rest

end

/-- `element.querySelector(...)` for a predicate on elements: the first
descendant element satisfying it, in document order. -/
def firstDescElem (p : DomNode → Bool) (n : DomNode) : Option DomNode :=
  n.descElems.find? p

/-- `container.getElementsByTagName(t)`: all descendant elements with the
given tag, in document order. -/
def getElementsByTag (t : String) (n : DomNode) : List DomNode :=
  n.descElems.filter fun e => e.tag? == some t

mutual

/-- Locates the first descendant element satisfying `p` (document order)
together with its `nextSibling`; models the source pattern
`element.querySelector(sel)` followed by `.nextSibling`. -/
def findElemNext (p : DomNode → Bool) : DomNode → Option (DomNode × Option DomNode)
  | .text _ => none
  | .element _ _ _ _ _ cs => findElemNextList p cs

/-- Sibling-aware search through a child-node list. -/
def findElemNextList (p : DomNode → Bool) : List DomNode → Option (DomNode × Option DomNode)
  | [] => none
  | c :: rest =>
    if c.isElem && p c then some (c, rest.head?)
    else
      match findElemNext p c with
      | some r => some r
      | none => findElemNextList p rest

end

/-! ## parse-node.ts -/

/-- The data of a parsed block element: block type, whether the type supports
children, the annotations with the color split off, and the element. -/
structure BlockElementData where
  blockType : String
  supportsChildren : Bool
  annots : AnnotFlags
  color : Option String
  element : DomNode

/-- The `ParsedNode` tagged union produced by the classifier. -/
inductive ParsedNode where
  | block (bd : BlockElementData)
  | list (element : DomNode)
  | richText (annots : AnnotFlags) (link : Option String) (element : DomNode)
  | textNode (content : String)
  | br
  | inlineMath (element : DomNode) (expr : String)
  | mathBlock (element : DomNode) (expr : String)

/-- Modelled from the spec: `getAnnotations` of the external annotations
module.  Section 4.1: bold/italic/strikethrough/underline/code are derived
from the tag name (`b`/`strong` bold, `i`/`em` italic, `code` code,
`s`/`del` strikethrough, `u` underline); the background color is resolved by
a later pass, so `color` is left empty here. -/
def getAnnots (n : DomNode) : AnnotFlags :=
  match n.tag? with
  | some "B" | some "STRONG" => { bold := some true }
  | some "I" | some "EM" => { italic := some true }
  | some "CODE" => { code := some true }
  | some "S" | some "DEL" => { strikethrough := some true }
  | some "U" => { underline := some true }
  | _ => {}

/-- `BLOCKS_SUPPORTING_CHILDREN` membership. -/
def doesBlockSupportChildren (blockType : String) : Bool :=
  ["bulleted_list_item", "numbered_list_item", "paragraph", "quote"].contains blockType

/-- `parseBlockElement`: splits the color off the annotations object. -/
def parseBlockElementD (n : DomNode) (blockType : String) : BlockElementData :=
  let ga := getAnnots n
  { blockType := blockType
    supportsChildren := doesBlockSupportChildren blockType
    annots := { ga with color := none }
    color := ga.color
    element := n }

/-- `parseListItemElement`: the list-item block type is inferred from the
parent element tag, falling back to `paragraph`. -/
def parseListItemElement (parentTag : Option String) (n : DomNode) : BlockElementData :=
  if parentTag = some "OL" then parseBlockElementD n "numbered_list_item"
  else if parentTag = some "UL" then parseBlockElementD n "bulleted_list_item"
  else parseBlockElementD n "paragraph"

/-- One backtracking attempt of the source regex
`^\$ repeated a times, then a lazy non-empty group, then one or two \$`. -/
def mathMatch (s : String) (a : Nat) : Option String :=
  if strStartsWith s (String.mk (List.replicate a '$')) then
    let r := jsDrop s a
    if strEndsWith r "$$" && jsLen r ≥ 3 then some (jsDropRight r 2)
    else if strEndsWith r "$" && jsLen r ≥ 2 then some (jsDropRight r 1)
    else none
  else none

/-- The source regex for math expressions: a greedy run of one or two `$`,
a lazy non-empty body, then one or two `$` at the end of the string.  The
two-dollar prefix is tried first, as the greedy quantifier does. -/
def mathExpr? (s : String) : Option String :=
  (mathMatch s 2).orElse fun _ => mathMatch s 1

/-- `getMathExpression`: requires non-empty text and the `math` class. -/
def getMathExpression (n : DomNode) : Option String :=
  if n.textContent != "" && n.hasClass "math" then mathExpr? n.textContent
  else none

/-- `parsePreElement`. -/
def parsePreElement (n : DomNode) : ParsedNode :=
  match getMathExpression n with
  | some e => .mathBlock n e
  | none => .block (parseBlockElementD n "code")

/-- `parseSpanElement`. -/
def parseSpanElement (n : DomNode) : ParsedNode :=
  match getMathExpression n with
  | some e => .inlineMath n e
  | none => .richText (getAnnots n) none n

/-- `parseAnchorElement`: the link is attached only for `http(s)` hrefs. -/
def parseAnchorElement (n : DomNode) : ParsedNode :=
  let href := (n.href?).getD ""
  .richText (getAnnots n) (if isHttpUrl href then some href else none) n

/-- `parseNode` of the repository (part_000 snapshot): the custom blockquote,
highlight-class, citation-class and paragraph branches come first, then the
upstream tag switch.  The parent element tag is passed explicitly (the DOM
parent pointer of the source is contextual information here); only the `LI`
branch reads it. -/
def parseNode (parentTag : Option String) (n : DomNode) : Option ParsedNode :=
  match n with
  | .text s => if jsTrim s = "" then none else some (.textNode s)
  | .element tg _ _ _ _ _ =>
    if tg = "BLOCKQUOTE" then some (.block ⟨"quote", true, {}, none, n⟩)
    else if n.hasClass "highlight" then
      some (.richText { color := some "yellow_background" } none n)
    else if n.hasClass "citation" then some (.richText {} none n)
    else if tg = "P" then some (.block ⟨"paragraph", true, {}, none, n⟩)
    else
      match tg with
      | "A" => some (parseAnchorElement n)
      | "BODY" | "DIV" => some (.block (parseBlockElementD n "paragraph"))
      | "H1" => some (.block (parseBlockElementD n "heading_1"))
      | "H2" => some (.block (parseBlockElementD n "heading_2"))
      | "H3" | "H4" | "H5" | "H6" => some (.block (parseBlockElementD n "heading_3"))
      | "LI" => some (.block (parseListItemElement parentTag n))
      | "OL" | "UL" => some (.list n)
      | "PRE" => some (parsePreElement n)
      | "SPAN" => some (parseSpanElement n)
      | "BR" => some .br
      | _ => some (.richText (getAnnots n) none n)

/-! ## notion-utils and trimming -/

/-- Modelled from the spec: `buildRichText` of the external notion-utils
module.  Section 4.2: a text run becomes one span carrying the inbound
annotations and link. -/
def buildRichText (content : String) (opts : RichTextOptions) : List Span :=
  [Span.text content opts.annots opts.link]

/-- The inner `updateContent` helper of `trimRichText`: looks up the span at
`index`, leaves non-text spans unchanged, applies the updater to the content
of a text span and drops the span if the result is empty. -/
def trimUpdateContent (richText : List Span) (index : Nat) (updater : String → String) :
    List Span :=
  match richText[index]? with
  | none => []
  | some (Span.equation e) => [Span.equation e]
  | some (Span.text c an lk) =>
    let content := updater c
    if content = "" then [] else [Span.text content an lk]

/-- `trimRichText`: no spans are returned unchanged, a single span is trimmed
on both ends, otherwise the first span is trimmed at the start, the last at
the end, and the interior (`slice(1, -1)`) is kept verbatim. -/
def trimRichText (richText : List Span) : List Span :=
  if richText.length = 0 then richText
  else if richText.length = 1 then trimUpdateContent richText 0 jsTrim
  else
    trimUpdateContent richText 0 jsTrimStart
      ++ (richText.drop 1).dropLast
      ++ trimUpdateContent richText (richText.length - 1) jsTrimEnd

/-- `paragraphBlock`. -/
def paragraphBlock (richText : List Span) : Block :=
  Block.mk "paragraph" richText none none none

/-! ## Rich-text conversion -/

mutual

/-- `convertRichTextChildNodes`: walks the child nodes of a node, classifying
each and converting it to spans. -/
def convertRichTextChildNodes (opts : RichTextOptions) : DomNode → List Span
  | .text _ => []
  | .element tg _ _ _ _ cs => convertRichTextList opts tg cs

/-- The body of the child walk.  Each arm mirrors `convertRichTextNode`:
text runs and line breaks build spans, inline math becomes an equation span,
a rich-text element recurses into its children with merged annotations and a
replaced link, and every other parsed element (block, list, math block)
recurses into its children with unchanged options.  The recursion descends
into the child node itself, which is exactly the `element` field `parseNode`
stores in each parsed variant. -/
def convertRichTextList (opts : RichTextOptions) (parentTag : String) :
    List DomNode → List Span
  | [] => []
  | c :: rest =>
    (match parseNode (some parentTag) c with
     | none => []
     | some (.textNode s) => buildRichText s opts
     | some .br => buildRichText "\n" { opts with preserveWhitespace := true }
     | some (.inlineMath _ e) => [Span.equation e]
     | some (.richText an lk _) =>
       convertRichTextChildNodes
         { opts with annots := opts.annots.merge an, link := lk.orElse fun _ => opts.link } c
     | some (.block _) => convertRichTextChildNodes opts c
     | some (.list _) => convertRichTextChildNodes opts c
     | some (.mathBlock _ _) => convertRichTextChildNodes opts c)
    ++ convertRichTextList opts parentTag rest

end

/-! ## The shared reduction of parent blocks -/

/-- The accumulator of the `forEach` in `convertParentElement`: the leading
rich text and the optional children array. -/
structure ParentAcc where
  richText : List Span
  children : Option (List Block)

/-- The tail of the `forEach` body: a child block is hoisted into the current
block when there are no children, no accumulated text, and the child is a
paragraph block; otherwise it is appended to the children array. -/
def appendOrHoist (acc : ParentAcc) (childBlock : Block) : ParentAcc :=
  if acc.children.isNone && acc.richText.isEmpty && childBlock.btype == "paragraph" then
    ⟨childBlock.richText, childBlock.children⟩
  else ⟨acc.richText, some ((acc.children.getD []) ++ [childBlock])⟩

/-- One step of the `forEach` of `convertParentElement`: rich text is trimmed
and either accumulated (no children yet) or wrapped into a synthesized
paragraph; block results go through `appendOrHoist`. -/
def processChildResult (acc : ParentAcc) (result : ChildResult) : ParentAcc :=
  match result with
  | .richTextR ts =>
    let trimmed := trimRichText ts
    if trimmed.isEmpty then acc
    else if acc.children.isNone then ⟨acc.richText ++ trimmed, acc.children⟩
    else appendOrHoist acc (paragraphBlock trimmed)
  | .blockR b => appendOrHoist acc b

/-- Embeds `convertChildNodes`.  The source reduces over `node.childNodes`,
calling `convertNode(childNode, options)` on each raw DOM node; `convertNode`
however dispatches on `node.type`, a field that exists on `ParsedNode` values
but not on DOM nodes, so the switch always falls through to `default` and
yields `undefined`, and the reduce accumulates nothing for every child.  The
reduction therefore returns the empty list on every input. -/
def convertChildNodes (node : DomNode) (_opts : RichTextOptions) : List ChildResult :=
  node.childNodes.foldl (fun results _childNode => results) []

/-- `convertParentElement` (identical in every snapshot). -/
def convertParentElement (bd : BlockElementData) (opts : RichTextOptions) : Block :=
  let updOpts := { opts with annots := opts.annots.merge bd.annots }
  let acc := (convertChildNodes bd.element updOpts).foldl processChildResult ⟨[], none⟩
  Block.mk bd.blockType acc.richText acc.children bd.color none

/-- `convertListElement` (identical in every snapshot): keeps only the
element children that classify as a child-supporting `*_list_item` block and
converts each through the parent-block path. -/
def convertListElement (listEl : DomNode) (opts : RichTextOptions) : ContentResult :=
  ContentResult.listR
    (listEl.elemChildren.filterMap fun el =>
      match parseNode listEl.tag? el with
      | some (.block bd) =>
        if bd.supportsChildren && strEndsWith bd.blockType "list_item" then
          some (convertParentElement bd opts)
        else none
      | _ => none)

/-! ## The generic block path and the synchronous snapshot (version B) -/

/-- The generic (non-annotation) part of `convertBlockElement`, shared by the
snapshots: merge annotations, preserve whitespace exactly for code blocks,
build the rich text from the child nodes and trim it unless preserving. -/
def convertBlockGeneric (blockType : String) (bd : BlockElementData)
    (opts : RichTextOptions) : Block :=
  let updOpts :=
    { opts with
      annots := opts.annots.merge bd.annots
      preserveWhitespace := blockType == "code" }
  let rt0 := convertRichTextChildNodes updOpts bd.element
  let rt := if updOpts.preserveWhitespace then rt0 else trimRichText rt0
  Block.mk blockType rt none bd.color none

/-- `convertBlockElement` of the synchronous snapshot: an annotation
paragraph containing a highlight marker or an image has its block type
switched to `quote` before the generic conversion runs. -/
def convertBlockElementB (bd : BlockElementData) (opts : RichTextOptions) : Block :=
  let blockType :=
    if opts.isAnnot && bd.element.tag? == some "P"
        && ((firstDescElem (fun e => e.hasClass "highlight") bd.element).isSome
            || (firstDescElem (fun e => e.tag? == some "IMG") bd.element).isSome) then
      "quote"
    else bd.blockType
  convertBlockGeneric blockType bd opts

/-- `convertNode` of the synchronous snapshot: a block element yields
`convertBlockElement(...).block`; a list yields
`convertListElement(...).block`, which is `undefined` because a `ListResult`
has no `block` property; every other parsed node yields `undefined`. -/
def convertNodeB (pn : ParsedNode) (opts : RichTextOptions) : Option TopLevelResult :=
  match pn with
  | .block bd => some (.blockObj (convertBlockElementB bd opts))
  | .list listEl => ((convertListElement listEl opts).blockProp).map .blockObj
  | _ => none

/-- Modelled from the spec: `findContainer` of the external dom-utils module.
Section 6: the content container is the first element, in document order and
starting from the root, that has renderable children (an element child or a
non-whitespace text child). -/
def findContainer (docRoot : DomNode) : Option DomNode :=
  (docRoot :: docRoot.descElems).find? fun e =>
    e.isElem && e.childNodes.any fun c =>
      match c with
      | .text s => jsTrim s != ""
      | .element _ _ _ _ _ _ => true

/-- `convertHtmlToBlocks` of the synchronous snapshot: parse, locate the
container (empty result when there is none), then classify and convert every
element child, keeping the defined results. -/
def convertHtmlToBlocksB (docRoot : DomNode) (isAnnot : Bool) : List TopLevelResult :=
  match findContainer docRoot with
  | none => []
  | some container =>
    container.elemChildren.filterMap fun el =>
      match parseNode container.tag? el with
      | none => none
      | some pn => convertNodeB pn { isAnnot := isAnnot }

/-! ## The color table and the asynchronous annotation snapshot (version C) -/

/-- The fixed color lookup table of `getNotionColorFromHex`: eight known
colors, each as a hex key and as an `rgb(r, g, b)` key. -/
def notionColorMap : List (String × String) :=
  [("#ffd400", "yellow_background"),
   ("#ff6666", "red_background"),
   ("#ffb437", "orange_background"),
   ("#5ff036", "green_background"),
   ("#50c8e5", "blue_background"),
   ("#a28ae5", "purple_background"),
   ("#e56eee", "pink_background"),
   ("#aaaaaa", "gray_background"),
   ("rgb(255, 212, 0)", "yellow_background"),
   ("rgb(255, 102, 102)", "red_background"),
   ("rgb(255, 180, 55)", "orange_background"),
   ("rgb(95, 240, 54)", "green_background"),
   ("rgb(80, 200, 229)", "blue_background"),
   ("rgb(162, 138, 229)", "purple_background"),
   ("rgb(229, 110, 238)", "pink_background"),
   ("rgb(170, 170, 170)", "gray_background")]

/-- Key lookup in a literal object, as `colorMap[normalizedColor]` does. -/
def assocLookup (kvs : List (String × String)) (k : String) : Option String :=
  match kvs with
  | [] => none
  | (k0, v0) :: rest => if k = k0 then some v0 else assocLookup rest k

/-- `getNotionColorFromHex`: normalize by lower-casing and trimming, look the
value up in the fixed table, default to the yellow background token. -/
def getNotionColorFromHex (hexColor : String) : String :=
  (assocLookup notionColorMap (jsTrim (jsToLower hexColor))).getD "yellow_background"

/-- Modelled from the spec: `getNotionColor` of the external annotations
module.  Section 4.5: the highlight color is resolved from the inline
background-color style and normalized through the fixed table; an element
without an inline background yields nothing. -/
def getNotionColor (n : DomNode) : Option String :=
  (n.bg?).map getNotionColorFromHex

/-- The fixed placeholder triple built by the asynchronous snapshot when no
content is found (the source function name is shortened here). -/
def createEmptyAnnot : List Block :=
  [Block.mk "callout" [Span.text "Empty" {} none] none (some "yellow_background") none,
   Block.mk "paragraph" [Span.text "No annotation provided" {} none] none none none,
   Block.mk "divider" [] none none none]

/-- `createFillerBlocks`: the deterministic substitute emitted when the image
upload path fails. -/
def createFillerBlocks : List Block :=
  [Block.mk "callout" [Span.text "Filler" {} none] none (some "yellow_background") none,
   Block.mk "paragraph" [Span.text "Filler" {} none] none none none,
   Block.mk "divider" [] none none none]

/-- The fixed Zotero cache directory used by the image branch. -/
def zoteroCachePath : String :=
  "/Users/suwonyoon/Library/Application Support/Zotero/Profiles/o576o2ld.dev/zotero/cache/library/"

/-- The comment extracted as the text of the node following the citation
marker, trimmed; empty when there is no citation or no next sibling. -/
def citationComment (element : DomNode) : String :=
  match findElemNext (fun e => e.hasClass "citation") element with
  | some (_, some sib) => jsTrim sib.textContent
  | _ => ""

/-- The raw text following the citation marker (untrimmed), as the highlight
branch reads it. -/
def citationRemaining (element : DomNode) : String :=
  match findElemNext (fun e => e.hasClass "citation") element with
  | some (_, some sib) => sib.textContent
  | _ => ""

/-- The image branch of the asynchronous `convertBlockElement`: decode the
annotation descriptor (a missing attribute decodes to an empty object, so the
key interpolates to the string "undefined" and the color read fails), build
the cache path, upload, and emit a callout wrapping the external image plus a
divider; any failure along the way is caught and replaced by the filler
triple. -/
def imageBranch (upl : String → Except String String) (element img : DomNode) :
    List Block :=
  let keyColor :=
    match img.descriptor? with
    | some (k, c) => (k, some c)
    | none => ("undefined", (none : Option String))
  let comment := citationComment element
  let path := zoteroCachePath ++ keyColor.1 ++ ".png"
  match upl path with
  | .error _ => createFillerBlocks
  | .ok url =>
    match keyColor.2 with
    | none => createFillerBlocks
    | some c =>
      [Block.mk "callout" [Span.text comment {} none]
        (some [Block.mk "image" [] none none (some url)])
        (some (getNotionColorFromHex c)) none,
       Block.mk "divider" [] none none none]

/-- The highlight branch of the asynchronous `convertBlockElement`: resolve
the color from the inner span (or the marker itself), strip the first and
last character of the raw text and trim, split the text after the citation on
`#` into a comment and code-annotated tags, and emit the
callout/paragraph/divider triple. -/
def highlightBranch (element hs : DomNode) : List Block :=
  let colorSpan := firstDescElem (fun e => e.tag? == some "SPAN") hs
  let notionColor := getNotionColor (colorSpan.getD hs)
  let rawText :=
    let a := match colorSpan with | some cs => cs.textContent | none => ""
    if a != "" then a else hs.textContent
  let highlightedText := jsTrim (jsDropRight (jsDrop rawText 1) 1)
  let parts := jsSplitChar '#' (jsTrim (citationRemaining element))
  let comment := parts.headD ""
  let formattedTags :=
    parts.tail.map fun t => Span.text ("#" ++ jsTrim t) { code := some true } none
  [Block.mk "callout" [Span.text highlightedText {} none] none
     (some (notionColor.getD "yellow_background")) none,
   Block.mk "paragraph"
     ([Span.text (jsTrim comment ++ "\n") {} none]
       ++ ((formattedTags.map fun t => [t, Span.text " " {} none]).flatten).dropLast)
     none none none,
   Block.mk "divider" [] none none none]

/-- `convertBlockElement` of the asynchronous snapshot: an annotation
paragraph containing an image or a highlight marker is rerouted (image branch
first), and the produced blocks are wrapped as the children of a paragraph
with empty rich text; everything else goes through the generic path. -/
def convertBlockElementC (upl : String → Except String String)
    (bd : BlockElementData) (opts : RichTextOptions) : Block :=
  if opts.isAnnot && bd.element.tag? == some "P" then
    let highlightSpan := firstDescElem (fun e => e.hasClass "highlight") bd.element
    let image := firstDescElem (fun e => e.tag? == some "IMG") bd.element
    if highlightSpan.isSome || image.isSome then
      let blocks :=
        match image, highlightSpan with
        | some img, _ => imageBranch upl bd.element img
        | none, some hs => highlightBranch bd.element hs
        | none, none => []
      Block.mk "paragraph" [] (some blocks) none none
    else convertBlockGeneric bd.blockType bd opts
  else convertBlockGeneric bd.blockType bd opts

/-- `convertNode` of the asynchronous snapshot; as in the synchronous one,
the list arm reads the missing `block` property of a `ListResult`. -/
def convertNodeC (upl : String → Except String String) (pn : ParsedNode)
    (opts : RichTextOptions) : Option Block :=
  match pn with
  | .block bd => some (convertBlockElementC upl bd opts)
  | .list listEl => (convertListElement listEl opts).blockProp
  | _ => none

/-- `convertHtmlToBlocks` of the asynchronous snapshot: the placeholder
triple is returned when no container or no paragraph is found; otherwise
every descendant paragraph is converted, an annotation wrapper paragraph is
unwrapped into its children, and the results are flattened.  The parent tag
of a descendant paragraph is not needed by `parseNode` (only the `LI` branch
reads it), so `none` is passed. -/
def convertHtmlToBlocksC (upl : String → Except String String)
    (docRoot : DomNode) (isAnnot : Bool) : List Block :=
  match findContainer docRoot with
  | none => createEmptyAnnot
  | some container =>
    let paragraphs := getElementsByTag "P" container
    if paragraphs.isEmpty then createEmptyAnnot
    else
      (paragraphs.map fun p =>
        match parseNode none p with
        | none => none
        | some pn =>
          match convertNodeC upl pn { isAnnot := isAnnot } with
          | none => none
          | some b =>
            if isAnnot && b.btype == "paragraph" && b.children.isSome then b.children
            else some [b]).filterMap id |>.flatten

/-! ## Batch partitioning -/

/-- The partition loop of `buildNoteBlockBatches`: the number of batches is
`max(1, ceil(length / batchSize))`, batch `i` is `slice(i * size, i * size +
size)`, and only non-empty batches are pushed. -/
def buildBatches (blocks : List Block) (batchSize : Nat) : List (List Block) :=
  let numBatches := max 1 ((blocks.length + batchSize - 1) / batchSize)
  ((List.range numBatches).map fun i => (blocks.drop (i * batchSize)).take batchSize).filter
    fun b => !b.isEmpty

/-- `buildNoteBlockBatches` abstracted over the configured limit
`LIMITS.BLOCK_ARRAY_ELEMENTS`: the effective batch size is
`Math.min(limit, 100)`. -/
def buildNoteBlockBatchesWithLimit (limit : Nat) (blocks : List Block) :
    List (List Block) :=
  buildBatches blocks (min limit 100)

/-! ## Color grouping of the asynchronous batch builder -/

/-- The fixed color-to-section-title table. -/
def colorTitles : List (String × String) :=
  [("yellow_background", "Highlights"),
   ("red_background", "Weak Points"),
   ("green_background", "Strong Points"),
   ("blue_background", "Unique Points"),
   ("purple_background", "To Explore"),
   ("default", "Other Notes")]

/-- ASCII upper-casing of a string, as `toUpperCase` does. -/
def jsToUpper (s : String) : String := ⟨s.data.map Char.toUpper⟩

/-- The generic fallback section title: the color token with the background
suffix removed, the first underscore replaced by a space, upper-cased. -/
def fallbackTitle (c : String) : String :=
  jsToUpper (replaceFirst (replaceFirst c "_background" "") "_" " ")

/-- The title of the heading created for a color:
`colorTitles[color] || fallback`. -/
def headingTitleFor (c : String) : String :=
  (assocLookup colorTitles c).getD (fallbackTitle c)

/-- The heading-matching predicate of the grouping pass: the block is a
level-three heading whose first rich-text span has content equal to the
title; a first span that is absent or not a text span never matches. -/
def matchesHeading (t : String) (b : Block) : Bool :=
  b.btype == "heading_3"
    && (match b.richText with
        | Span.text c _ _ :: _ => c == t
        | _ => false)

/-- Pushes a finished group into the children of the first heading block
whose title matches; a miss leaves the list unchanged (as `find` returning
`undefined` does). -/
def pushIntoHeading (t : String) (grp : List Block) : List Block → List Block
  | [] => []
  | b :: rest =>
    if matchesHeading t b then
      Block.mk b.btype b.richText (some ((b.children.getD []) ++ grp)) b.color b.url :: rest
    else b :: pushIntoHeading t grp rest

/-- Flushes the current group into its heading.  The lookup uses
`colorTitles[currentCalloutColor]` directly, so a color absent from the title
table finds no heading and its group is dropped. -/
def flushGroup (headingBlocks : List Block) (currentColor : Option String)
    (grp : List Block) : List Block :=
  match currentColor with
  | none => headingBlocks
  | some c =>
    if grp.isEmpty then headingBlocks
    else
      match assocLookup colorTitles c with
      | none => headingBlocks
      | some t => pushIntoHeading t grp headingBlocks

/-- Splits a paragraph's rich text into the concatenated comment text
(spans without the code annotation) and the rebuilt code-annotated tag
spans. -/
def splitCommentTags (spans : List Span) : String × List Span :=
  spans.foldl
    (fun acc sp =>
      match sp with
      | Span.text c an _ =>
        if an.code == some true then
          (acc.1, acc.2 ++ [Span.text c { code := some true } none])
        else (acc.1 ++ c, acc.2)
      | Span.equation _ => acc)
    ("", [])

/-- The tag paragraph of the grouping pass: tags interleaved with
single-space spans, without a trailing space. -/
def tagParagraphSpans (tags : List Span) : List Span :=
  ((tags.map fun t => [t, Span.text " " {} none]).flatten).dropLast

/-- The state of the second grouping pass. -/
structure GroupAcc where
  currentColor : Option String
  currentGroup : List Block
  headingBlocks : List Block

/-- One step of the second grouping pass: a callout flushes the previous
group and starts a new one keyed by its color (defaulted when absent); a
paragraph
inside a group is split into a comment paragraph and a tag paragraph; a
divider inside a group is appended verbatim; everything else is ignored. -/
def groupStep (acc : GroupAcc) (b : Block) : GroupAcc :=
  if b.btype == "callout" then
    let hs := flushGroup acc.headingBlocks acc.currentColor acc.currentGroup
    ⟨some ((b.color).getD "default"), [b], hs⟩
  else if acc.currentColor.isSome && b.btype == "paragraph" then
    let ct := splitCommentTags b.richText
    let g1 :=
      if jsTrim ct.1 != "" then
        acc.currentGroup ++ [Block.mk "paragraph" [Span.text (jsTrim ct.1) {} none] none none none]
      else acc.currentGroup
    let g2 :=
      if ct.2.isEmpty then g1
      else g1 ++ [Block.mk "paragraph" (tagParagraphSpans ct.2) none none none]
    ⟨acc.currentColor, g2, acc.headingBlocks⟩
  else if acc.currentColor.isSome && b.btype == "divider" then
    ⟨acc.currentColor, acc.currentGroup ++ [b], acc.headingBlocks⟩
  else acc

/-- The color-grouping transform of the asynchronous `buildNoteBlockBatches`:
the first pass collects callout colors in order of first occurrence and
creates one `heading_3` block per color (titled from the table, with the
generic fallback); the second pass buckets the blocks into the headings. -/
def groupAnnotBlocks (originalBlocks : List Block) : List Block :=
  let colors :=
    originalBlocks.foldl
      (fun acc b =>
        if b.btype == "callout" then
          let c := (b.color).getD "default"
          if acc.contains c then acc else acc ++ [c]
        else acc)
      []
  let headingBlocks :=
    colors.map fun c =>
      Block.mk "heading_3" [Span.text (headingTitleFor c) {} none] (some []) none none
  let acc := originalBlocks.foldl groupStep ⟨none, [], headingBlocks⟩
  flushGroup acc.headingBlocks acc.currentColor acc.currentGroup

/-- The asynchronous `buildNoteBlockBatches`, abstracted over the configured
limit and over the already-converted block list: annotation notes are grouped
by color first, then batched. -/
def buildNoteBlockBatchesGrouped (limit : Nat) (isAnnot : Bool)
    (originalBlocks : List Block) : List (List Block) :=
  buildNoteBlockBatchesWithLimit limit
    (if isAnnot then groupAnnotBlocks originalBlocks else originalBlocks)

/-! ## Concrete fixtures -/

/-- The document `<div><p>Hello</p></div>` after parsing. -/
def helloDoc : DomNode :=
  .element "BODY" [] none none none
    [.element "DIV" [] none none none
      [.element "P" [] none none none [.text "Hello"]]]

/-- The annotation paragraph of the extraction scenario: a highlight marker
whose inner span carries background color `#ffd400` and the quoted text, a
citation marker, and the trailing free text with two hashtags. -/
def annotP : DomNode :=
  .element "P" [] none none none
    [.element "SPAN" ["highlight"] none none none
      [.element "SPAN" [] (some "#ffd400") none none [.text "\"Key idea\""]],
     .text " ",
     .element "SPAN" ["citation"] none none none [.text "(Author, 2024)"],
     .text " interesting #theory #review"]

/-- A document holding the annotation paragraph. -/
def annotDoc : DomNode := .element "BODY" [] none none none [annotP]

/-- A placeholder block used to build concrete batching inputs. -/
def dummyBlock : Block := Block.mk "paragraph" [] none none none

/-- A document whose body is empty, so that no content container exists. -/
def emptyBody : DomNode := .element "BODY" [] none none none []

/-- A document whose only top-level child is a list with one item. -/
def ulDoc : DomNode :=
  .element "BODY" [] none none none
    [.element "UL" [] none none none
      [.element "LI" [] none none none [.text "item"]]]

/-- A bare list item element. -/
def liItem : DomNode := .element "LI" [] none none none [.text "item"]

/-- A yellow callout of the grouping scenario. -/
def calloutY : Block :=
  Block.mk "callout" [Span.text "Key idea" {} none] none (some "yellow_background") none

/-- A green callout of the grouping scenario. -/
def calloutG : Block :=
  Block.mk "callout" [Span.text "Other idea" {} none] none (some "green_background") none

/-- The comment paragraph following the yellow callout. -/
def paraA : Block := Block.mk "paragraph" [Span.text "noteA" {} none] none none none

/-- The comment paragraph following the green callout. -/
def paraB : Block := Block.mk "paragraph" [Span.text "noteB" {} none] none none none

/-- A divider block. -/
def divB : Block := Block.mk "divider" [] none none none

/-! ## Statement-side helpers for the trimming claim -/

/-- The claim's description of what happens to the first span of a multi-span
sequence: its leading whitespace is removed, it is dropped when it becomes
empty, and a non-text span is left unchanged. -/
def specLeadTrim : Span → List Span
  | .text c an lk =>
    if jsTrimStart c = "" then [] else [Span.text (jsTrimStart c) an lk]
  | s => [s]

/-- The claim's description of what happens to the last span of a multi-span
sequence: its trailing whitespace is removed, it is dropped when it becomes
empty, and a non-text span is left unchanged. -/
def specTailTrim : Span → List Span
  | .text c an lk =>
    if jsTrimEnd c = "" then [] else [Span.text (jsTrimEnd c) an lk]
  | s => [s]

/-! ## Helper lemmas -/

theorem assocLookup_val_mem (kvs : List (String × String)) (k v : String)
    (h : assocLookup kvs k = some v) : v ∈ kvs.map Prod.snd := by
  induction kvs with
  | nil => simp [assocLookup] at h
  | cons kv rest ih =>
    obtain ⟨k0, v0⟩ := kv
    unfold assocLookup at h
    split at h
    · rw [Option.some.injEq] at h
      subst h
      exact List.mem_cons_self _ _
    · rw [List.map_cons, List.mem_cons]
      exact Or.inr (ih h)

theorem assocLookup_key_mem (kvs : List (String × String)) (k v : String)
    (h : assocLookup kvs k = some v) : ∃ kv ∈ kvs, kv.1 = k := by
  induction kvs with
  | nil => simp [assocLookup] at h
  | cons kv rest ih =>
    obtain ⟨k0, v0⟩ := kv
    unfold assocLookup at h
    split at h
    next heq => exact ⟨(k0, v0), by simp, heq.symm⟩
    · obtain ⟨kv, hmem, hk⟩ := ih h
      exact ⟨kv, by simp [hmem], hk⟩

theorem buildBatches_mem_le (blocks : List Block) (size : Nat) :
    ∀ b ∈ buildBatches blocks size, b ≠ [] ∧ b.length ≤ size := by
  intro b hb
  unfold buildBatches at hb
  rw [List.mem_filter] at hb
  obtain ⟨hmem, hne⟩ := hb
  refine ⟨by simpa using hne, ?_⟩
  rw [List.mem_map] at hmem
  obtain ⟨i, _, rfl⟩ := hmem
  simp [List.length_take_le]

theorem listChunks_flatten (size : Nat) (_h : 1 ≤ size) :
    ∀ (n : Nat) (l : List Block), l.length ≤ n * size →
      (((List.range n).map fun i => (l.drop (i * size)).take size)).flatten = l := by
  intro n
  induction n with
  | zero =>
    intro l hl
    simp only [Nat.zero_mul, Nat.le_zero] at hl
    simp [List.eq_nil_of_length_eq_zero hl]
  | succ n ih =>
    intro l hl
    rw [Nat.succ_mul] at hl
    rw [List.range_succ_eq_map, List.map_cons, List.flatten_cons, List.map_map]
    have hmap :
        ((List.range n).map ((fun i => (l.drop (i * size)).take size) ∘ Nat.succ)) =
          (List.range n).map fun i => (((l.drop size).drop (i * size)).take size) := by
    -- each shifted chunk of `l` is a chunk of `l.drop size`
      refine List.map_congr_left fun i _ => ?_
      have h1 : Nat.succ i * size = size + i * size := by
        rw [Nat.succ_mul, Nat.add_comm]
      simp only [Function.comp_apply, h1, List.drop_drop]
    rw [hmap, ih (l.drop size) (by simp only [List.length_drop]; omega)]
    simp [List.take_append_drop]

theorem len_le_batches_mul (len size : Nat) (h : 1 ≤ size) :
    len ≤ (max 1 ((len + size - 1) / size)) * size := by
  rcases Nat.eq_zero_or_pos len with h0 | hpos
  · simp [h0]
  · have hq : (len + size - 1) / size = (len - 1) / size + 1 := by
      have hsplit : len + size - 1 = (len - 1) + size := by omega
      rw [hsplit, Nat.add_div_right _ h]
    rw [hq]
    have hmax : max 1 ((len - 1) / size + 1) = (len - 1) / size + 1 :=
      Nat.max_eq_right (Nat.succ_le_succ (Nat.zero_le _))
    rw [hmax, Nat.add_mul, Nat.one_mul]
    have hdm := Nat.div_add_mod' (len - 1) size
    have hmod : (len - 1) % size < size := Nat.mod_lt _ h
    set A := (len - 1) / size * size with hA
    set r := (len - 1) % size with hr
    omega

theorem buildBatches_flatten (blocks : List Block) (size : Nat) (h : 1 ≤ size) :
    (buildBatches blocks size).flatten = blocks := by
  unfold buildBatches
  rw [List.flatten_filter_not_isEmpty]
  exact listChunks_flatten size h _ blocks (len_le_batches_mul blocks.length size h)

/-! ## Claim theorems -/

/-- C1 (amended): for every parsed document and every options value, each
element of the sequence returned by the top-level conversion
`convertHtmlToBlocksB` is a fully-formed block object — never a
`RichTextResult` or a `ListResult`; moreover a top-level list node and a
top-level inline rich-text node contribute no output element at all (they
are dropped rather than flattened or absorbed). -/
theorem convertHtmlToBlocksB_elements_are_blocks :
    (∀ (docRoot : DomNode) (isAnnot : Bool) (r : TopLevelResult),
        r ∈ convertHtmlToBlocksB docRoot isAnnot → ∃ b, r = TopLevelResult.blockObj b)
    ∧ (∀ (listEl : DomNode) (opts : RichTextOptions),
        convertNodeB (ParsedNode.list listEl) opts = none)
    ∧ (∀ (an : AnnotFlags) (lk : Option String) (el : DomNode) (opts : RichTextOptions),
        convertNodeB (ParsedNode.richText an lk el) opts = none) := by
  refine ⟨?_, ?_, ?_⟩
  · intro docRoot isAnnot r hr
    unfold convertHtmlToBlocksB at hr
    cases hfc : findContainer docRoot with
    | none => rw [hfc] at hr; simp at hr
    | some container =>
      rw [hfc] at hr
      obtain ⟨el, _, hfe⟩ := List.mem_filterMap.mp hr
      cases hpn : parseNode container.tag? el with
      | none => rw [hpn] at hfe; simp at hfe
      | some pn =>
        rw [hpn] at hfe
        cases pn with
        | block bd =>
          exact ⟨_, (Option.some.inj hfe).symm⟩
        | list listEl =>
          simp [convertNodeB, convertListElement, ContentResult.blockProp] at hfe
        | richText an lk e => simp [convertNodeB] at hfe
        | textNode s => simp [convertNodeB] at hfe
        | br => simp [convertNodeB] at hfe
        | inlineMath e ex => simp [convertNodeB] at hfe
        | mathBlock e ex => simp [convertNodeB] at hfe
  · intro listEl opts
    simp [convertNodeB, convertListElement, ContentResult.blockProp]
  · intro an lk el opts
    rfl

/-- Witness for C1: the single element produced for the `Hello` document is
a block object. -/
theorem convertHtmlToBlocksB_elements_are_blocks_witness :
    ∃ b, TopLevelResult.blockObj
        (Block.mk "paragraph" [Span.text "Hello" {} none] none none none) =
      TopLevelResult.blockObj b :=
  convertHtmlToBlocksB_elements_are_blocks.1 helloDoc false _ (by
    rw [show convertHtmlToBlocksB helloDoc false =
        [TopLevelResult.blockObj
          (Block.mk "paragraph" [Span.text "Hello" {} none] none none none)] from rfl]
    exact List.mem_singleton.mpr rfl)

/-- C1 counterexample: at the top level a list wrapper is dropped, not
flattened — the list element converts to a non-trivial `ListResult`, but the
`.block` access on it is undefined and the document with a single top-level
list converts to the empty sequence. -/
theorem convertHtmlToBlocksB_list_dropped :
    convertListElement
        (DomNode.element "UL" [] none none none
          [DomNode.element "LI" [] none none none [DomNode.text "item"]]) {} =
      ContentResult.listR [Block.mk "bulleted_list_item" [] none none none]
    ∧ convertHtmlToBlocksB ulDoc false = [] :=
  ⟨rfl, rfl⟩

/-- C2: converting `<div><p>Hello</p></div>` in non-annotation mode yields
exactly one paragraph block with the single span `Hello` and no nested
paragraph; and the reduction step of `convertParentElement` hoists a first
child that is a structurally trivial paragraph (only rich text, no children)
into the parent instead of appending it as a nested block. -/
theorem divP_hello_hoist :
    convertHtmlToBlocksB helloDoc false =
      [TopLevelResult.blockObj
        (Block.mk "paragraph" [Span.text "Hello" {} none] none none none)]
    ∧ (∀ cb : Block, cb.btype = "paragraph" → cb.children = none →
        processChildResult ⟨[], none⟩ (ChildResult.blockR cb) = ⟨cb.richText, cb.children⟩
          ∧ processChildResult ⟨[], none⟩ (ChildResult.blockR cb) ≠ ⟨[], some [cb]⟩) := by
  refine ⟨rfl, ?_⟩
  intro cb h1 h2
  have hstep :
      processChildResult ⟨[], none⟩ (ChildResult.blockR cb) = ⟨cb.richText, cb.children⟩ := by
    simp [processChildResult, appendOrHoist, h1]
  refine ⟨hstep, ?_⟩
  rw [hstep, h2]
  intro heq
  have := congrArg ParentAcc.children heq
  simp at this

/-- Witness for C2: the hoisting step at a concrete trivial paragraph. -/
theorem divP_hello_hoist_witness :
    processChildResult ⟨[], none⟩
        (ChildResult.blockR (Block.mk "paragraph" [Span.text "x" {} none] none none none)) =
      ⟨(Block.mk "paragraph" [Span.text "x" {} none] none none none).richText,
       (Block.mk "paragraph" [Span.text "x" {} none] none none none).children⟩ :=
  (divP_hello_hoist.2 (Block.mk "paragraph" [Span.text "x" {} none] none none none) rfl rfl).1

/-- C3: in annotation mode the paragraph with a `#ffd400` highlight whose
quoted inner text is `"Key idea"` and whose citation marker is followed by
`interesting #theory #review` converts to exactly three blocks: a yellow
callout with text `Key idea`, a paragraph starting with `interesting`
followed by the code-annotated tags `#theory` and `#review` separated by a
single-space span, and a divider.  The highlighted text arises by stripping
the first and last character of the inner span's text and trimming. -/
theorem annot_paragraph_three_blocks :
    ∀ upl : String → Except String String,
      convertHtmlToBlocksC upl annotDoc true =
        [Block.mk "callout" [Span.text "Key idea" {} none] none
           (some "yellow_background") none,
         Block.mk "paragraph"
           [Span.text "interesting\n" {} none,
            Span.text "#theory" { code := some true } none,
            Span.text " " {} none,
            Span.text "#review" { code := some true } none] none none none,
         Block.mk "divider" [] none none none] :=
  fun _ => rfl

/-- C4: the batch partitioner yields non-empty slices no longer than the
maximum whose concatenation is the input in order; 250 blocks at limit 100
yield batches of sizes 100, 100, 50, and an empty input yields no batch. -/
theorem buildBatches_partition :
    (∀ (blocks : List Block) (size : Nat), 1 ≤ size →
        (∀ batch ∈ buildBatches blocks size, batch ≠ [] ∧ batch.length ≤ size)
          ∧ (buildBatches blocks size).flatten = blocks)
    ∧ (buildBatches (List.replicate 250 dummyBlock) 100).map List.length = [100, 100, 50]
    ∧ buildBatches ([] : List Block) 100 = [] := by
  refine ⟨fun blocks size h => ⟨buildBatches_mem_le blocks size, buildBatches_flatten blocks size h⟩, ?_, rfl⟩
  set_option maxRecDepth 10000 in rfl

/-- Witness for C4: the partition contract instantiated at 250 dummy blocks
and limit 100. -/
theorem buildBatches_partition_witness :
    (buildBatches (List.replicate 250 dummyBlock) 100).flatten = List.replicate 250 dummyBlock :=
  (buildBatches_partition.1 (List.replicate 250 dummyBlock) 100 (by decide)).2

/-- C5 (amended): `trimRichText` returns a zero-span sequence unchanged,
trims a single text span at both ends, and on two or more spans removes only
the leading whitespace of the first span and the trailing whitespace of the
last span, keeping every interior span verbatim, dropping a span whose
content becomes empty and never altering non-text spans.  In particular
`[" Hi "]` trims to `["Hi"]` and `[" Hi ", "there", " you "]` trims to
`["Hi ", "there", " you"]` (the trailing whitespace of the first span and
the leading whitespace of the last span are kept). -/
theorem trimRichText_spec :
    trimRichText [] = []
    ∧ (∀ (c : String) (an : AnnotFlags) (lk : Option String),
        trimRichText [Span.text c an lk] =
          if jsTrim c = "" then [] else [Span.text (jsTrim c) an lk])
    ∧ (∀ e : String, trimRichText [Span.equation e] = [Span.equation e])
    ∧ (∀ (a : Span) (mid : List Span) (b : Span),
        trimRichText (a :: (mid ++ [b])) = specLeadTrim a ++ mid ++ specTailTrim b)
    ∧ trimRichText [Span.text " Hi " {} none] = [Span.text "Hi" {} none]
    ∧ trimRichText
        [Span.text " Hi " {} none, Span.text "there" {} none, Span.text " you " {} none] =
      [Span.text "Hi " {} none, Span.text "there" {} none, Span.text " you" {} none] := by
  refine ⟨rfl, ?_, fun e => rfl, ?_, rfl, rfl⟩
  · intro c an lk
    simp [trimRichText, trimUpdateContent]
  · intro a mid b
    have hlen : (a :: (mid ++ [b])).length = mid.length + 2 := by simp
    have hfirst :
        trimUpdateContent (a :: (mid ++ [b])) 0 jsTrimStart = specLeadTrim a := by
      cases a <;> simp [trimUpdateContent, specLeadTrim]
    have hmid : ((a :: (mid ++ [b])).drop 1).dropLast = mid := by
      simp [List.dropLast_concat]
    have hget : (a :: (mid ++ [b]))[mid.length + 1]? = some b := by
      simp
    have hlast :
        trimUpdateContent (a :: (mid ++ [b])) (mid.length + 1) jsTrimEnd = specTailTrim b := by
      cases b <;> simp [trimUpdateContent, hget, specTailTrim]
    rw [trimRichText, hlen]
    simp only [Nat.add_eq_zero, OfNat.ofNat_ne_zero, and_false, if_false,
      Nat.add_right_cancel_iff, Nat.add_left_cancel_iff, Nat.add_sub_cancel]
    have h21 : mid.length + 2 - 1 = mid.length + 1 := by omega
    rw [if_neg (by omega), hfirst, hmid, h21, hlast]

/-- C5 counterexample: on `[" Hi ", "there", " you "]` the code keeps the
trailing whitespace of the first span and the leading whitespace of the last
span, so the claimed result `["Hi", "there", "you"]` is wrong. -/
theorem trimRichText_multi_keeps_inner_whitespace :
    trimRichText
        [Span.text " Hi " {} none, Span.text "there" {} none, Span.text " you " {} none] =
      [Span.text "Hi " {} none, Span.text "there" {} none, Span.text " you" {} none]
    ∧ trimRichText
        [Span.text " Hi " {} none, Span.text "there" {} none, Span.text " you " {} none] ≠
      [Span.text "Hi" {} none, Span.text "there" {} none, Span.text "you" {} none] :=
  ⟨rfl, by decide⟩

/-- C6 (amended): when the parser yields no locatable content container, the
synchronous conversion returns the empty sequence and the asynchronous
annotation conversion returns the fixed placeholder triple, in both
implementations regardless of the annotation flag, not conditional on it. -/
theorem noContainer_behavior (docRoot : DomNode) (h : findContainer docRoot = none) :
    (∀ isAnnot : Bool, convertHtmlToBlocksB docRoot isAnnot = [])
    ∧ (∀ (upl : String → Except String String) (isAnnot : Bool),
        convertHtmlToBlocksC upl docRoot isAnnot = createEmptyAnnot) := by
  constructor
  · intro isAnnot
    simp [convertHtmlToBlocksB, h]
  · intro upl isAnnot
    simp [convertHtmlToBlocksC, h]

/-- Witness for C6: a document with an empty body has no container, and the
synchronous conversion of it is empty. -/
theorem noContainer_behavior_witness :
    findContainer emptyBody = none ∧ convertHtmlToBlocksB emptyBody true = [] :=
  ⟨rfl, (noContainer_behavior emptyBody rfl).1 true⟩

/-- C6 counterexample: with the annotation flag off and no container, the
asynchronous conversion still returns the placeholder triple instead of the
empty sequence the claim requires for non-annotation mode. -/
theorem noContainer_nonAnnot_returns_triple :
    convertHtmlToBlocksC (fun _ => Except.error "unavailable") emptyBody false = createEmptyAnnot
    ∧ createEmptyAnnot ≠ [] :=
  ⟨rfl, by simp [createEmptyAnnot]⟩

/-- C7 (amended): the color normalization maps through the fixed table of
eight colors (each given as a hex key and an `rgb(r, g, b)` key with the
table's exact interior spacing), insensitively to case and to leading and
trailing whitespace, to one of eight background tokens, and yields the
yellow token for every value whose normalization is not a table key. -/
theorem getNotionColorFromHex_table :
    (∀ s : String, getNotionColorFromHex s ∈
      ["yellow_background", "red_background", "orange_background", "green_background",
       "blue_background", "purple_background", "pink_background", "gray_background"])
    ∧ (∀ s t : String, jsTrim (jsToLower s) = jsTrim (jsToLower t) →
        getNotionColorFromHex s = getNotionColorFromHex t)
    ∧ (notionColorMap.all fun kv => getNotionColorFromHex kv.1 == kv.2) = true
    ∧ (∀ s : String, (∀ kv ∈ notionColorMap, jsTrim (jsToLower s) ≠ kv.1) →
        getNotionColorFromHex s = "yellow_background") := by
  refine ⟨?_, ?_, by decide, ?_⟩
  · intro s
    unfold getNotionColorFromHex
    cases hl : assocLookup notionColorMap (jsTrim (jsToLower s)) with
    | none => simp
    | some v =>
      have hmem := assocLookup_val_mem _ _ _ hl
      simp only [Option.getD_some]
      simp only [notionColorMap, List.map_cons, List.map_nil, List.mem_cons,
        List.not_mem_nil, or_false] at hmem
      rcases hmem with rfl | rfl | rfl | rfl | rfl | rfl | rfl | rfl | rfl | rfl | rfl
        | rfl | rfl | rfl | rfl | rfl <;> simp
  · intro s t h
    unfold getNotionColorFromHex
    rw [h]
  · intro s h
    unfold getNotionColorFromHex
    cases hl : assocLookup notionColorMap (jsTrim (jsToLower s)) with
    | none => simp
    | some v =>
      obtain ⟨kv, hmem, hk⟩ := assocLookup_key_mem _ _ _ hl
      exact absurd hk.symm (h kv hmem)

/-- Witness for C7: a value outside the table normalizes to the yellow
token. -/
theorem getNotionColorFromHex_table_witness :
    getNotionColorFromHex "nope" = "yellow_background" :=
  getNotionColorFromHex_table.2.2.2 "nope" (by decide)

/-- C7 counterexample: matching is not interior-whitespace-insensitive — the
red color written without spaces after the commas misses the table and falls
back to yellow, while the canonical spacing maps to red. -/
theorem getNotionColorFromHex_whitespace_sensitive :
    getNotionColorFromHex "rgb(255,102,102)" = "yellow_background"
    ∧ getNotionColorFromHex "rgb(255, 102, 102)" = "red_background" :=
  ⟨rfl, rfl⟩

/-- C8: two annotation triples whose callouts are yellow and green group into
exactly two heading sections titled `Highlights` and `Strong Points` (per the
fixed table), in first-encounter order, each holding exactly its own color's
callout/paragraph/divider triple as children; the asynchronous batch builder
returns them as one batch; and a color absent from the title table gets the
generic fallback title derived from its token. -/
theorem groupAnnotBlocks_two_sections :
    groupAnnotBlocks [calloutY, paraA, divB, calloutG, paraB, divB] =
      [Block.mk "heading_3" [Span.text "Highlights" {} none]
        (some [calloutY, paraA, divB]) none none,
       Block.mk "heading_3" [Span.text "Strong Points" {} none]
        (some [calloutG, paraB, divB]) none none]
    ∧ buildNoteBlockBatchesGrouped 100 true [calloutY, paraA, divB, calloutG, paraB, divB] =
      [[Block.mk "heading_3" [Span.text "Highlights" {} none]
          (some [calloutY, paraA, divB]) none none,
        Block.mk "heading_3" [Span.text "Strong Points" {} none]
          (some [calloutG, paraB, divB]) none none]]
    ∧ headingTitleFor "pink_background" = "PINK" :=
  ⟨rfl, rfl, rfl⟩

/-- C9: the list-item classifier yields `numbered_list_item` under an `OL`
parent, `bulleted_list_item` under a `UL` parent, and `paragraph` in every
other case including no parent at all, with no error signal; a bare `LI`
element accordingly converts to a paragraph block, not a list item. -/
theorem parseListItemElement_cases :
    (∀ (el : DomNode) (p : Option String),
        (parseListItemElement p el).blockType =
          if p = some "OL" then "numbered_list_item"
          else if p = some "UL" then "bulleted_list_item"
          else "paragraph")
    ∧ (∀ el : DomNode, (parseListItemElement none el).blockType = "paragraph")
    ∧ parseNode none liItem = some (.block (parseBlockElementD liItem "paragraph"))
    ∧ convertNodeB (ParsedNode.block (parseListItemElement none liItem)) {} =
        some (.blockObj (Block.mk "paragraph" [Span.text "item" {} none] none none none)) := by
  refine ⟨?_, fun el => rfl, rfl, rfl⟩
  intro el p
  unfold parseListItemElement parseBlockElementD
  split_ifs <;> rfl

/-- C10: the batch builder uses the effective batch size
`min(limit, 100)`, so even a configured limit above 100 never yields a batch
with more than 100 blocks. -/
theorem batches_capped_at_100 (limit : Nat) (blocks : List Block) (_h : 1 ≤ limit) :
    ∀ batch ∈ buildNoteBlockBatchesWithLimit limit blocks,
      batch.length ≤ 100 ∧ batch.length ≤ min limit 100 := by
  intro b hb
  have hle := (buildBatches_mem_le blocks (min limit 100) b hb).2
  exact ⟨le_trans hle (Nat.min_le_right _ _), hle⟩

/-- Witness for C10: with a configured limit of 250 and 150 blocks, the first
produced batch holds exactly 100 blocks. -/
theorem batches_capped_at_100_witness :
    (List.replicate 100 dummyBlock).length ≤ 100
      ∧ (List.replicate 100 dummyBlock).length ≤ min 250 100 :=
  batches_capped_at_100 250 (List.replicate 150 dummyBlock) (by decide)
    (List.replicate 100 dummyBlock)
    (by
      rw [show buildNoteBlockBatchesWithLimit 250 (List.replicate 150 dummyBlock) =
          [List.replicate 100 dummyBlock, List.replicate 50 dummyBlock] from by
        set_option maxRecDepth 10000 in rfl]
      exact List.mem_cons_self _ _)
